import Mathlib

/-!
Verification development for the ai-watch data-aggregation scripts.

The repository contains several variants of `scripts/update_data.mjs`.
Namespace `UpdateData` embeds the variant at `src/scripts/update_data.mjs`
(the canonical file); namespace `Part002` embeds the variant stored as
`src/unnamed/part_002`.  JavaScript numbers standing for counts are
modelled as `Nat`, click-through rates as `Rat`, timestamps parsed with
`new Date(...)` as `Int` values, and fallible asynchronous calls as
`Except String` results.
-/

namespace AiWatch

/-- Character-wise lowering; models JS `String.prototype.toLowerCase` on the
ASCII data these scripts handle. -/
def lowerS (s : String) : String := String.mk (s.data.map Char.toLower)

/-- Models JS `hay.includes(needle)`: `needle` occurs as a contiguous
substring of `hay`. -/
def containsS (hay needle : String) : Bool :=
  hay.data.tails.any (fun t => needle.data.isPrefixOf t)

/-- Brand filter predicate of `fetchGSC`
(`termsLower.some(t => (r.keys?.[0]||'').toLowerCase().includes(t))`,
with `termsLower = BRAND_TERMS.map(t => t.toLowerCase())`). -/
def brandMatch (terms : List String) (q : String) : Bool :=
  (terms.map lowerS).any (fun t => containsS (lowerS q) t)

/-- An RSS alert item as built in `fetchAlerts`.  `published` stands for the
numeric value `new Date(it.published)` used by the sort comparator. -/
structure AlertItem where
  id : String
  title : String
  link : String
  source : String
  published : Int
deriving DecidableEq

/-- Identity key used by the dedup loop: `it.link || it.id`
(a falsy — empty — link falls back to the id). -/
def alertKey (it : AlertItem) : String := if it.link = "" then it.id else it.link

/-- Ordering used by `all.sort((a,b) => new Date(b.published) - new Date(a.published))`:
`a` may come before `b` exactly when `a.published ≥ b.published` (descending). -/
def aLe (a b : AlertItem) : Prop := b.published ≤ a.published

instance : DecidableRel aLe := fun a b => Int.decLe _ _

instance : IsTotal AlertItem aLe := ⟨fun a b => le_total b.published a.published⟩

instance : IsTrans AlertItem aLe := ⟨fun _ _ _ h1 h2 => le_trans h2 h1⟩

/-- The dedup loop of `fetchAlerts`: walk the (already sorted) list, keep an
item only when its key was not seen before. -/
def dedupAlerts (seen : List String) : List AlertItem → List AlertItem
  | [] => []
  | it :: rest =>
    if alertKey it ∈ seen then dedupAlerts seen rest
    else it :: dedupAlerts (alertKey it :: seen) rest

/-- A Google Search Console API row (`rows` entry of a searchanalytics
response). -/
structure ApiRow where
  keys : List String
  clicks : Nat
  impressions : Nat
  ctr : Rat
  position : Rat
deriving DecidableEq

/-- A processed query row of `topQueries`. -/
structure QueryRow where
  query : String
  clicks : Nat
  impressions : Nat
  ctr : Rat
  position : Rat
deriving DecidableEq

/-- A processed page row of `topPages`. -/
structure PageRow where
  page : String
  clicks : Nat
  impressions : Nat
  ctr : Rat
deriving DecidableEq

/-- Mapping of an API row to a query row
(`{ query: r.keys?.[0]||'', clicks: r.clicks||0, ... }`). -/
def toQueryRow (r : ApiRow) : QueryRow :=
  ⟨r.keys.headD "", r.clicks, r.impressions, r.ctr, r.position⟩

/-- Mapping of an API row to a page row. -/
def toPageRow (r : ApiRow) : PageRow :=
  ⟨r.keys.headD "", r.clicks, r.impressions, r.ctr⟩

/-- Ordering of `sort((a,b) => b.impressions - a.impressions)`: descending
impressions. -/
def qLe (a b : QueryRow) : Prop := b.impressions ≤ a.impressions

instance : DecidableRel qLe := fun a b => Nat.decLe _ _

instance : IsTotal QueryRow qLe := ⟨fun a b => le_total b.impressions a.impressions⟩

instance : IsTrans QueryRow qLe := ⟨fun _ _ _ h1 h2 => le_trans h2 h1⟩

/-- Ordering of `sort((a,b) => b.clicks - a.clicks)`: descending clicks. -/
def pLe (a b : PageRow) : Prop := b.clicks ≤ a.clicks

instance : DecidableRel pLe := fun a b => Nat.decLe _ _

instance : IsTotal PageRow pLe := ⟨fun a b => le_total b.clicks a.clicks⟩

instance : IsTrans PageRow pLe := ⟨fun _ _ _ h1 h2 => le_trans h2 h1⟩

/-- GSC OAuth credentials read from the environment. -/
structure Creds where
  clientId : String
  clientSecret : String
  refreshToken : String
  property : String
deriving DecidableEq

/-- The guard `!GSC_CLIENT_ID || !GSC_CLIENT_SECRET || !GSC_REFRESH_TOKEN ||
!GSC_PROPERTY` (negated): all four credentials are present. -/
def credsOk (c : Creds) : Bool :=
  (c.clientId != "") && (c.clientSecret != "") &&
  (c.refreshToken != "") && (c.property != "")

/-- Dimension argument of a searchanalytics query. -/
inductive Dim where
  | query
  | page
deriving DecidableEq

/-- A search-analytics endpoint: given start day, end day (as UTC day
numbers) and a dimension it either returns rows or throws. -/
def Api : Type := Nat → Nat → Dim → Except String (List ApiRow)

/-- A bot statistics record (`{ name, hits, last_seen }`). -/
structure BotStat where
  name : String
  hits : Nat
  last_seen : Option String
deriving DecidableEq

/-- First bracketed segment of a log line with the trailing `|| null`:
`line.match(/\[(.*?)\]/)?.[1] || null` (an empty capture is collapsed to
null by `||`). -/
def tsOrNull (line : String) : Option String :=
  match line.data.dropWhile (fun c => c != '[') with
  | '[' :: rest =>
    match rest.dropWhile (fun c => c != ']') with
    | ']' :: _ =>
      let seg := rest.takeWhile (fun c => c != ']')
      if seg = [] then none else some (String.mk seg)
    | _ => none
  | _ => none

/-- Scanner state machine behind the global regex match
`line.match(/"([^"]*)"/g)`: outside quotes (`none`) it looks for an opening
quote, inside quotes (`some acc`) it accumulates until the closing quote;
an unmatched trailing opening quote yields no further segment. -/
def quotedSegsAux : List Char → Option (List Char) → List (List Char)
  | [], _ => []
  | c :: rest, none =>
    if c = '"' then quotedSegsAux rest (some []) else quotedSegsAux rest none
  | c :: rest, some acc =>
    if c = '"' then acc :: quotedSegsAux rest none
    else quotedSegsAux rest (some (acc ++ [c]))

/-- Successive non-overlapping pairs of double quotes delimit the quoted
segments of a line. -/
def quotedSegs (l : List Char) : List (List Char) := quotedSegsAux l none

/-- Chunks of a line split at every double quote, as by `splitOn`. -/
def splitOnQ : List Char → List (List Char)
  | [] => [[]]
  | c :: rest =>
    if c = '"' then [] :: splitOnQ rest
    else
      match splitOnQ rest with
      | [] => [[c]]
      | h :: t => (c :: h) :: t

/-- Selects the chunks standing between the (2k+1)-th and (2k+2)-th quote:
with chunks `c0, c1, c2, ...`, these are `c1, c3, ...`, and a chunk after
the last quote never counts (an odd trailing quote is unclosed). -/
def oddChunks : List (List Char) → List (List Char)
  | _ :: c1 :: rest => if rest = [] then [] else c1 :: oddChunks rest
  | _ => []

/-- Stated from the spec's words, for comparison with the source's
extraction: the last double-quoted segment on the line, or the empty
string when the line has no closed double-quoted segment. -/
def lastQuotedSegment (line : String) : String :=
  match (oddChunks (splitOnQ line.data)).getLast? with
  | some seg => String.mk seg
  | none => ""

/-- A named bot signature: a display name and a user-agent test. -/
structure BotSig where
  name : String
  test : String → Bool

/-- Case-insensitive substring test, the meaning of a plain `/pat/i` regex
(`pat` given in lowercase). -/
def cI (ua pat : String) : Bool := containsS (lowerS ua) pat

/-- ASCII word character, JS regex `\w`. -/
def isWordChar (c : Char) : Bool := c.isAlphanum || c = '_'

/-- Meaning of `/\bpat\b/i` for a pattern that starts and ends with word
characters: `pat` occurs at a position whose neighbours on both sides are
absent or non-word characters. -/
def containsWordB (pat ua : String) : Bool :=
  let hay := (lowerS ua).data
  let p := pat.data
  (List.range (hay.length + 1)).any (fun i =>
    p.isPrefixOf (hay.drop i) &&
    (decide (i = 0) || !(isWordChar (hay.getD (i - 1) ' '))) &&
    (decide (hay.length ≤ i + p.length) || !(isWordChar (hay.getD (i + p.length) ' '))))

/-- Meaning of `/(^|[^a-z])pat([^a-z]|$)/i`: `pat` occurs with no letter
directly before or after the occurrence. -/
def containsTokenNL (pat ua : String) : Bool :=
  let hay := (lowerS ua).data
  let p := pat.data
  (List.range (hay.length + 1)).any (fun i =>
    p.isPrefixOf (hay.drop i) &&
    (decide (i = 0) || !((hay.getD (i - 1) ' ').isAlpha)) &&
    (decide (hay.length ≤ i + p.length) || !((hay.getD (i + p.length) ' ').isAlpha)))

/-- Meaning of `/screaming\s*frog/i`: `screaming`, any run of whitespace,
then `frog`. -/
def screamingFrogB (ua : String) : Bool :=
  let hay := (lowerS ua).data
  (List.range (hay.length + 1)).any (fun i =>
    ("screaming".data).isPrefixOf (hay.drop i) &&
    ("frog".data).isPrefixOf ((hay.drop (i + 9)).dropWhile Char.isWhitespace))

/-- Ordering of the final `sort((a, b) => b.hits - a.hits)` on bot stats. -/
def bLe (a b : BotStat) : Prop := b.hits ≤ a.hits

instance : DecidableRel bLe := fun a b => Nat.decLe _ _

instance : IsTotal BotStat bLe := ⟨fun a b => le_total b.hits a.hits⟩

instance : IsTrans BotStat bLe := ⟨fun _ _ _ h1 h2 => le_trans h2 h1⟩

end AiWatch

namespace UpdateData

open AiWatch

/-- Sort-and-dedup step of `fetchAlerts` in `src/scripts/update_data.mjs`
(lines 64-73), applied to the items collected from all feeds: sort by
published date descending, then keep the first occurrence of each key. -/
def fetchAlerts (all : List AlertItem) : List AlertItem :=
  dedupAlerts [] (List.insertionSort aLe all)

/-- The `summary` object built by `fetchGSC`.  `genCtrPct` is the number
formatted into the `'Gen. CTR'` percent string; `period` is the pair of day
numbers rendered into the `Period` string. -/
structure Summary where
  klickar : Nat
  visningar : Nat
  genCtrPct : Rat
  period : Nat × Nat
deriving DecidableEq

/-- Return value of a successful, configured `fetchGSC` run. -/
structure GscData where
  summary : Summary
  topQueries : List QueryRow
  topPages : List PageRow
deriving DecidableEq

/-- Embedding of `fetchGSC` of `src/scripts/update_data.mjs` (lines 76-113).
Missing credentials yield `.ok none` (the JS `null`); an API error is not
caught anywhere in this variant and so propagates as `.error`.  The window
is the 30 days ending yesterday; `today` is the current UTC day number. -/
def fetchGSC (creds : Creds) (brand : List String) (api : Api) (today : Nat) :
    Except String (Option GscData) :=
  if credsOk creds = false then .ok none
  else
    let endD := today - 1
    let startD := endD - 29
    match api startD endD .query with
    | .error e => .error e
    | .ok qraw =>
      let qRows := List.insertionSort qLe
        ((qraw.filter (fun r => brandMatch brand (r.keys.headD ""))).map toQueryRow)
      match api startD endD .page with
      | .error e => .error e
      | .ok praw =>
        let pRows := List.insertionSort pLe (praw.map toPageRow)
        let clicksSum := pRows.foldl (fun s r => s + r.clicks) 0
        let imprSum := pRows.foldl (fun s r => s + r.impressions) 0
        let ctrAvgPct : Rat :=
          if pRows.length ≠ 0 then
            (pRows.foldl (fun s r => s + r.ctr) 0) / (pRows.length : Rat) * 100
          else 0
        .ok (some ⟨⟨clicksSum, imprSum, ctrAvgPct, (startD, endD)⟩,
          qRows.take 50, pRows.take 50⟩)

/-- Embedding of `parseUA` (line 115): the regex
`/"[^"]*" "([^"]*)"$/` demands that the line end with two space-separated
double-quoted segments and captures the final one; otherwise the result is
the empty string. -/
def parseUA (line : String) : String :=
  match line.data.reverse with
  | '"' :: rest =>
    let uaRev := rest.takeWhile (fun c => c != '"')
    match rest.dropWhile (fun c => c != '"') with
    | '"' :: ' ' :: '"' :: rest2 =>
      match rest2.dropWhile (fun c => c != '"') with
      | '"' :: _ => String.mk uaRev.reverse
      | _ => ""
    | _ => ""
  | _ => ""

/-- The four-signature bot table of `fetchBots` (lines 122-127), with each
`/.../i.test(ua)` regex rendered as a case-insensitive substring test. -/
def botSigs : List BotSig :=
  [⟨"GPTBot", fun ua => cI ua "gptbot"⟩,
   ⟨"PerplexityBot", fun ua => cI ua "perplexitybot"⟩,
   ⟨"Claude-Web", fun ua => cI ua "claude-web" || cI ua "anthropic"⟩,
   ⟨"Google-Extended", fun ua => cI ua "google-extended" || cI ua "googlebot"⟩]

/-- One iteration of the line loop of `fetchBots` (lines 129-139): every
signature is tested (`bots.forEach`, no early exit) and each matching one
has its hit count bumped and its `last_seen` set on first sighting. -/
def stepBots (line : String) (st : List (BotSig × BotStat)) :
    List (BotSig × BotStat) :=
  let ua := parseUA line
  st.map (fun p =>
    if p.1.test ua then
      (p.1, ⟨p.2.name, p.2.hits + 1,
        match p.2.last_seen with
        | some t => some t
        | none => tsOrNull line⟩)
    else p)

/-- Initial stats array `bots.map(b => ({name: b.name, hits: 0, last_seen: null}))`. -/
def initStats : List (BotSig × BotStat) :=
  botSigs.map (fun b => (b, ⟨b.name, 0, none⟩))

/-- The scanning loop plus the final `hits > 0` filter of `fetchBots`,
over an explicitly given line order. -/
def scanBots (lines : List String) : List BotStat :=
  ((lines.foldl (fun st l => stepBots l st) initStats).map Prod.snd).filter
    (fun s => decide (0 < s.hits))

/-- Embedding of `fetchBots` (lines 117-147): no log path (or a read error)
degrades to `[]`; otherwise the non-empty lines are processed newest first
(`.reverse()`). -/
def fetchBots (linesOpt : Option (List String)) : List BotStat :=
  match linesOpt with
  | none => []
  | some lines => scanBots lines.reverse

/-- The assembled `data` document of `main` (lines 156-162); the JS
placeholder `{summary: {Notis: ...}, topQueries: [], topPages: []}` is the
`none` case of `gsc`. -/
structure Snapshot where
  brand_terms : List String
  alerts : List AlertItem
  gsc : Option GscData
  bots : List BotStat
deriving DecidableEq

/-- Query list the snapshot renders: the placeholder carries none. -/
def Snapshot.shownQueries (s : Snapshot) : List QueryRow :=
  match s.gsc with
  | some g => g.topQueries
  | none => []

/-- Page list the snapshot renders: the placeholder carries none. -/
def Snapshot.shownPages (s : Snapshot) : List PageRow :=
  match s.gsc with
  | some g => g.topPages
  | none => []

/-- Embedding of `main` (lines 150-171): `Promise.all` of the three
fetchers.  `fetchAlerts` and `fetchBots` swallow their errors internally,
so the only rejection reaching `main` (which then exits with a nonzero
status, producing no snapshot) is one from `fetchGSC`. -/
def main (alertsAll : List AlertItem) (creds : Creds) (brand : List String)
    (api : Api) (today : Nat) (linesOpt : Option (List String)) :
    Except String Snapshot :=
  match fetchGSC creds brand api today with
  | .error e => .error e
  | .ok gsc => .ok ⟨brand, fetchAlerts alertsAll, gsc, fetchBots linesOpt⟩

end UpdateData


namespace Part002

open AiWatch

/-- Sort-and-dedup step of `fetchAlerts` in `src/unnamed/part_002`
(lines 96-106); the algorithm is identical to the canonical variant. -/
def fetchAlerts (all : List AlertItem) : List AlertItem :=
  dedupAlerts [] (List.insertionSort aLe all)

/-- Embedding of `parseUA` of `src/unnamed/part_002` (lines 203-211): all
double-quoted segments are collected and the last one is returned without
its quotes, or the empty string when there is none. -/
def parseUA (line : String) : String :=
  match (quotedSegs line.data).getLast? with
  | some seg => String.mk seg
  | none => ""

/-- The built-in `BOT_DEFS` table of `fetchBots` (lines 220-248), each
regex rendered as the corresponding decidable user-agent test. -/
def botDefs : List BotSig :=
  [⟨"GPTBot (OpenAI)", fun ua => cI ua "gptbot" || cI ua "chatgpt-user"⟩,
   ⟨"Claude-Web (Anthropic)", fun ua => cI ua "claude-web" || cI ua "claudebot" || cI ua "anthropic"⟩,
   ⟨"PerplexityBot", fun ua => cI ua "perplexitybot"⟩,
   ⟨"Google-Extended", fun ua => cI ua "google-extended"⟩,
   ⟨"Googlebot", fun ua => containsWordB "googlebot" ua⟩,
   ⟨"Bingbot", fun ua => containsWordB "bingbot" ua || containsWordB "bingpreview" ua⟩,
   ⟨"DuckDuckBot", fun ua => cI ua "duckduckbot"⟩,
   ⟨"YandexBot", fun ua => cI ua "yandexbot" || cI ua "yandeximages"⟩,
   ⟨"Applebot", fun ua => cI ua "applebot"⟩,
   ⟨"FacebookExternalHit", fun ua => cI ua "facebookexternalhit" || cI ua "facebookbot"⟩,
   ⟨"Twitterbot / XBot", fun ua => containsWordB "twitterbot" ua || containsTokenNL "xbot" ua⟩,
   ⟨"LinkedInBot", fun ua => cI ua "linkedinbot"⟩,
   ⟨"Discordbot", fun ua => cI ua "discordbot"⟩,
   ⟨"AhrefsBot", fun ua => cI ua "ahrefsbot"⟩,
   ⟨"SemrushBot", fun ua => cI ua "semrushbot"⟩,
   ⟨"DotBot (Moz)", fun ua => containsTokenNL "dotbot" ua⟩,
   ⟨"MJ12bot", fun ua => cI ua "mj12bot"⟩,
   ⟨"Bytespider (ByteDance)", fun ua => cI ua "bytespider"⟩,
   ⟨"CCBot (CommonCrawl)", fun ua => containsWordB "ccbot" ua⟩,
   ⟨"Screaming Frog", fun ua => screamingFrogB ua⟩,
   ⟨"SeznamBot", fun ua => cI ua "seznambot"⟩]

/-- The `statsMap` update: an existing entry for the name keeps its
`last_seen` and gains a hit; a new name is appended with one hit and the
line's bracketed timestamp (insertion order of a JS `Map`). -/
def bump (name : String) (ts : Option String) : List BotStat → List BotStat
  | [] => [⟨name, 1, ts⟩]
  | s :: rest =>
    if s.name = name then ⟨s.name, s.hits + 1, s.last_seen⟩ :: rest
    else s :: bump name ts rest

/-- One iteration of the line loop of `fetchBots` (lines 268-284): skip the
line when the user-agent is empty or `"-"`, otherwise test the signatures
in table order and stop at the first match (`break`). -/
def stepBots (defs : List BotSig) (line : String) (st : List BotStat) :
    List BotStat :=
  let ua := parseUA line
  if ua = "" ∨ ua = "-" then st
  else
    match defs.find? (fun d => d.test ua) with
    | some d => bump d.name (tsOrNull line) st
    | none => st

/-- Embedding of `fetchBots` of `src/unnamed/part_002` (lines 213-294):
lines are processed newest first, the map values are finally sorted by hits
descending.  `extra` models the `BOT_EXTRA` signatures appended to the
table; a missing path, read error or empty file degrades to `[]`. -/
def fetchBots (extra : List BotSig) (linesOpt : Option (List String)) :
    List BotStat :=
  match linesOpt with
  | none => []
  | some lines =>
    List.insertionSort bLe
      (lines.reverse.foldl (fun st l => stepBots (botDefs ++ extra) l st) [])

/-- The `summary` of part_002's `fetchGSC`.  `genCtr` is the ratio handed
to `percent`, `period` the day-number pair of the window actually used and
`fallback90` records the `' (fallback 90d)'` suffix. -/
structure Summary where
  klickar : Nat
  visningar : Nat
  genCtr : Rat
  period : Nat × Nat
  fallback90 : Bool
deriving DecidableEq

/-- Return value of a successful, configured part_002 `fetchGSC` run. -/
structure GscData where
  summary : Summary
  topQueries : List QueryRow
  topPages : List PageRow
deriving DecidableEq

/-- Row processing and summary of part_002's `fetchGSC` (lines 153-192):
filter-map-sort-slice both dimensions, then sum clicks and impressions over
the (already truncated) `topPages` and divide. -/
def buildGsc (brand : List String) (qraw praw : List ApiRow)
    (period : Nat × Nat) (fb : Bool) : GscData :=
  let topQueries := (List.insertionSort qLe
    ((qraw.filter (fun r => brandMatch brand (r.keys.headD ""))).map toQueryRow)).take 50
  let topPages := (List.insertionSort pLe (praw.map toPageRow)).take 50
  let clicksSum : Nat := topPages.foldl (fun s r => s + r.clicks) 0
  let imprSum : Nat := topPages.foldl (fun s r => s + r.impressions) 0
  let ctrOverall : Rat := if 0 < imprSum then (clicksSum : Rat) / (imprSum : Rat) else 0
  ⟨⟨clicksSum, imprSum, ctrOverall, period, fb⟩, topQueries, topPages⟩

/-- Embedding of `fetchGSC` of `src/unnamed/part_002` (lines 111-199):
missing credentials or any caught API error yield `none`; a 30-day window
ending yesterday is tried first and, when both dimensions come back empty,
both queries are re-issued over the 90-day window. -/
def fetchGSC (creds : Creds) (brand : List String) (api : Api) (today : Nat) :
    Option GscData :=
  if credsOk creds = false then none
  else
    let endD := today - 1
    let s30 := endD - 29
    let s90 := endD - 89
    match api s30 endD .query with
    | .error _ => none
    | .ok q30 =>
      match api s30 endD .page with
      | .error _ => none
      | .ok p30 =>
        if q30.length = 0 ∧ p30.length = 0 then
          match api s90 endD .query with
          | .error _ => none
          | .ok q90 =>
            match api s90 endD .page with
            | .error _ => none
            | .ok p90 => some (buildGsc brand q90 p90 (s90, endD) true)
        else some (buildGsc brand q30 p30 (s30, endD) false)

/-- The assembled `data` document of part_002's `main` (lines 311-317) with
`DEMO` unset; the placeholder gsc object is the `none` case. -/
structure Snapshot where
  brand_terms : List String
  alerts : List AlertItem
  gsc : Option GscData
  bots : List BotStat
deriving DecidableEq

/-- Embedding of part_002's `main` (lines 298-367, DEMO off): every fetcher
catches its own failures, so a snapshot is always assembled. -/
def main (alertsAll : List AlertItem) (creds : Creds) (brand : List String)
    (api : Api) (today : Nat) (extra : List BotSig)
    (linesOpt : Option (List String)) : Snapshot :=
  ⟨brand, fetchAlerts alertsAll, fetchGSC creds brand api today,
    fetchBots extra linesOpt⟩

end Part002

namespace AiWatch

/-! Concrete inputs used by witnesses and counterexamples. -/

/-- A fully populated credential set (all four values non-empty). -/
def credsX : Creds := ⟨"id", "secret", "token", "sc-domain:example"⟩

/-- An analytics endpoint whose every call throws. -/
def apiThrow : Api := fun _ _ _ => .error "403 quota"

/-- An analytics endpoint returning no rows for any window or dimension. -/
def apiEmpty : Api := fun _ _ _ => .ok []

/-- Page rows exercising the CTR summary: 1 click out of 2 impressions and
0 clicks out of 1000 impressions. -/
def c2Api : Api := fun _ _ d =>
  match d with
  | .query => .ok []
  | .page => .ok [⟨["https://a/"], 1, 2, mkRat 1 2, 0⟩, ⟨["https://b/"], 0, 1000, 0, 0⟩]

/-- An endpoint with empty 30-day results (start day 70 for day 100) and
one row per dimension for the 90-day window (start day 10). -/
def c3Api : Api := fun s _ d =>
  if s = 10 then
    match d with
    | .query => .ok [⟨["wpg poker"], 3, 7, 0, 0⟩]
    | .page => .ok [⟨["https://worldpoker.guide/"], 4, 9, 0, 0⟩]
  else .ok []

/-- A combined-format log line whose user-agent mentions two signatures of
the canonical bot table at once. -/
def c4Line : String :=
  "1.2.3.4 - - [21/Aug/2025:10:13:11 +0000] \"GET / HTTP/1.1\" \"GPTBot Googlebot\""

/-- A log line whose user-agent matches both the GPTBot and the Claude
signatures of the part_002 table. -/
def c4Line2 : String := "8.8.8.8 [21/Aug/2025:10:14:55 +0000] \"gptbot claudebot\""

/-- Two alert items sharing the same link (hence the same identity key)
with different publish dates. -/
def c5It1 : AlertItem := ⟨"a", "t1", "https://l/", "s", 5⟩

/-- The older duplicate of `c5It1`. -/
def c5It2 : AlertItem := ⟨"b", "t2", "https://l/", "s", 3⟩

/-- An item list with one duplicated identity key. -/
def c5Items : List AlertItem := [c5It2, c5It1]

/-- Fifty-one query rows that all contain the brand term `wpg`, with
pairwise distinct impression counts 0..50. -/
def c6Rows : List ApiRow := (List.range 51).map (fun i => ⟨["wpg"], 0, i, 0, 0⟩)

/-- Endpoint returning the 51 brand-matching query rows and no pages. -/
def c6Api : Api := fun _ _ d =>
  match d with
  | .query => .ok c6Rows
  | .page => .ok []

/-- The row of `c6Rows` with 0 impressions. -/
def c6row0 : ApiRow := ⟨["wpg"], 0, 0, 0, 0⟩

/-- The `topQueries` list the canonical `fetchGSC` produces from `c6Api`. -/
def c6TopQueries : List QueryRow :=
  match UpdateData.fetchGSC credsX ["wpg"] c6Api 100 with
  | .ok (some g) => g.topQueries
  | _ => []

/-- Two query rows, one containing the brand term and one not, for the
small witness runs. -/
def c6SmallRows : List ApiRow :=
  [⟨["wpg poker"], 3, 7, 0, 0⟩, ⟨["unrelated"], 9, 100, 0, 0⟩]

/-- Endpoint returning `c6SmallRows` for queries and no pages. -/
def c6SmallApi : Api := fun _ _ d =>
  match d with
  | .query => .ok c6SmallRows
  | .page => .ok []

/-- The GSC data the canonical `fetchGSC` produces from `c6SmallApi` at
day 100. -/
def c6gSmall : UpdateData.GscData :=
  ⟨⟨0, 0, 0, (70, 99)⟩, [⟨"wpg poker", 3, 7, 0, 0⟩], []⟩

/-- The canonical GSC result on the `c2Api` rows. -/
def c2Canonical : Option UpdateData.GscData :=
  match UpdateData.fetchGSC credsX ["wpg"] c2Api 100 with
  | .ok g => g
  | .error _ => none

/-- The part_002 GSC result on the `c2Api` rows. -/
def c2Part002 : Option Part002.GscData := Part002.fetchGSC credsX ["wpg"] c2Api 100

/-- The period the canonical summary reports when every call of the run
returns zero rows. -/
def c3CanonicalPeriod : Option (Nat × Nat) :=
  match UpdateData.fetchGSC credsX ["wpg"] apiEmpty 100 with
  | .ok (some g) => some g.summary.period
  | _ => none

/-- The snapshot of a concrete full canonical run (alerts from `c5Items`,
GSC from `c6SmallApi`, bots from the log line `c4Line`). -/
def c7Snap : UpdateData.Snapshot :=
  ⟨["wpg"], [c5It1], some c6gSmall,
   [⟨"GPTBot", 1, some "21/Aug/2025:10:13:11 +0000"⟩,
    ⟨"Google-Extended", 1, some "21/Aug/2025:10:13:11 +0000"⟩]⟩

/-- Canonical GSC data of a run with `c6SmallApi` and no brand terms. -/
def c10gCanonical : UpdateData.GscData := ⟨⟨0, 0, 0, (70, 99)⟩, [], []⟩

/-- Part_002 GSC data of a run with `c6SmallApi` and no brand terms. -/
def c10gPart : Part002.GscData := ⟨⟨0, 0, 0, (70, 99), false⟩, [], []⟩

/-- A log line whose last double-quoted segment is the placeholder `-`. -/
def c9Line : String :=
  "7.7.7.7 - - [21/Aug/2025:10:14:55 +0000] \"GET /x HTTP/1.1\" 200 \"-\""

/-- Decidable equality of `Except` results, used to decide concrete runs. -/
instance exceptDecEq {e a : Type} [DecidableEq e] [DecidableEq a] :
    DecidableEq (Except e a) := fun x y =>
  match x, y with
  | .error u, .error v =>
    if h : u = v then isTrue (congrArg Except.error h)
    else isFalse (fun hh => h (Except.error.inj hh))
  | .error _, .ok _ => isFalse (fun hh => Except.noConfusion hh)
  | .ok _, .error _ => isFalse (fun hh => Except.noConfusion hh)
  | .ok u, .ok v =>
    if h : u = v then isTrue (congrArg Except.ok h)
    else isFalse (fun hh => h (Except.ok.inj hh))

/-- Lookup of a bot stat entry by name. -/
def entryOf (n : String) (st : List BotStat) : Option BotStat :=
  st.find? (fun s => s.name == n)

/-! Helper lemmas about the dedup loop shared by the alert claims. -/

theorem dedupAlerts_sublist (seen : List String) (l : List AlertItem) :
    List.Sublist (dedupAlerts seen l) l := by
  induction l generalizing seen with
  | nil => simp [dedupAlerts]
  | cons x rest ih =>
    by_cases h : alertKey x ∈ seen
    · simp only [dedupAlerts, if_pos h]
      exact (ih seen).cons x
    · simp only [dedupAlerts, if_neg h]
      exact (ih (alertKey x :: seen)).cons₂ x

theorem dedupAlerts_key_not_seen (seen : List String) (l : List AlertItem) :
    ∀ it ∈ dedupAlerts seen l, alertKey it ∉ seen := by
  induction l generalizing seen with
  | nil => simp [dedupAlerts]
  | cons x rest ih =>
    intro it hit
    by_cases h : alertKey x ∈ seen
    · simp only [dedupAlerts, if_pos h] at hit
      exact ih seen it hit
    · simp only [dedupAlerts, if_neg h, List.mem_cons] at hit
      rcases hit with rfl | hit
      · exact h
      · intro hseen
        exact ih (alertKey x :: seen) it hit (List.mem_cons_of_mem _ hseen)

theorem dedupAlerts_nodup (seen : List String) (l : List AlertItem) :
    ((dedupAlerts seen l).map alertKey).Nodup := by
  induction l generalizing seen with
  | nil => simp [dedupAlerts]
  | cons x rest ih =>
    by_cases h : alertKey x ∈ seen
    · simpa only [dedupAlerts, if_pos h] using ih seen
    · simp only [dedupAlerts, if_neg h, List.map_cons, List.nodup_cons]
      refine ⟨?_, ih (alertKey x :: seen)⟩
      intro hmem
      rcases List.mem_map.mp hmem with ⟨it, hit, hkey⟩
      exact dedupAlerts_key_not_seen _ _ it hit (hkey ▸ List.mem_cons_self _ _)

theorem dedupAlerts_covers (seen : List String) (l : List AlertItem) :
    ∀ it ∈ l, alertKey it ∈ seen ∨ alertKey it ∈ (dedupAlerts seen l).map alertKey := by
  induction l generalizing seen with
  | nil => simp
  | cons x rest ih =>
    intro it hit
    rcases List.mem_cons.mp hit with rfl | hit
    · by_cases h : alertKey it ∈ seen
      · exact Or.inl h
      · right
        simp [dedupAlerts, if_neg h]
    · by_cases h : alertKey x ∈ seen
      · simpa only [dedupAlerts, if_pos h] using ih seen it hit
      · rcases ih (alertKey x :: seen) it hit with hseen | hout
        · rcases List.mem_cons.mp hseen with heq | hseen
          · right
            simp [dedupAlerts, if_neg h, heq]
          · exact Or.inl hseen
        · right
          simp only [dedupAlerts, if_neg h, List.map_cons, List.mem_cons]
          exact Or.inr hout

theorem dedupAlerts_first (seen : List String) (l : List AlertItem) :
    ∀ it ∈ dedupAlerts seen l,
      l.find? (fun x => alertKey x == alertKey it) = some it := by
  induction l generalizing seen with
  | nil => simp [dedupAlerts]
  | cons x rest ih =>
    intro it hit
    by_cases h : alertKey x ∈ seen
    · simp only [dedupAlerts, if_pos h] at hit
      have hne : alertKey it ≠ alertKey x := by
        intro he
        exact dedupAlerts_key_not_seen seen rest it hit (he ▸ h)
      have hx : (alertKey x == alertKey it) = false := by
        simp [Ne.symm hne]
      simp only [List.find?_cons, hx]
      exact ih seen it hit
    · simp only [dedupAlerts, if_neg h, List.mem_cons] at hit
      rcases hit with rfl | hit
      · simp [List.find?_cons]
      · have hns := dedupAlerts_key_not_seen (alertKey x :: seen) rest it hit
        have hne : alertKey it ≠ alertKey x := by
          intro he
          exact hns (he ▸ List.mem_cons_self _ _)
        have hx : (alertKey x == alertKey it) = false := by
          simp [Ne.symm hne]
        simp only [List.find?_cons, hx]
        exact ih (alertKey x :: seen) it hit

end AiWatch

namespace AiWatch

/-- C5: for every list of alert items, the deduplicated output of
`fetchAlerts` has pairwise distinct identity keys, every output entry is the
first occurrence of its key in the descending-published sort of the input,
and every input key is represented by exactly one output entry. -/
theorem C5_alert_dedup (items : List AlertItem) :
    ((UpdateData.fetchAlerts items).map alertKey).Nodup ∧
    (∀ it ∈ UpdateData.fetchAlerts items,
      (List.insertionSort aLe items).find? (fun x => alertKey x == alertKey it) = some it) ∧
    (∀ it ∈ items, alertKey it ∈ (UpdateData.fetchAlerts items).map alertKey) := by
  refine ⟨dedupAlerts_nodup [] _, dedupAlerts_first [] _, ?_⟩
  intro it hit
  have hsorted : it ∈ List.insertionSort aLe items :=
    (List.perm_insertionSort aLe items).mem_iff.mpr hit
  rcases dedupAlerts_covers [] (List.insertionSort aLe items) it hsorted with h | h
  · cases h
  · exact h

/-- C5 witness: on a concrete two-item list sharing one link key, the
output keys are distinct, the kept entry is the first occurrence of the key
after the descending sort, and the duplicated key is still represented. -/
theorem C5_alert_dedup_witness :
    ((UpdateData.fetchAlerts c5Items).map alertKey).Nodup ∧
    (List.insertionSort aLe c5Items).find? (fun x => alertKey x == alertKey c5It1) =
      some c5It1 ∧
    alertKey c5It2 ∈ (UpdateData.fetchAlerts c5Items).map alertKey :=
  ⟨(C5_alert_dedup c5Items).1,
   (C5_alert_dedup c5Items).2.1 c5It1 (by decide),
   (C5_alert_dedup c5Items).2.2 c5It2 (by decide)⟩

end AiWatch

namespace UpdateData

open AiWatch

/-- Projection of the canonical scanning fold: after processing any list of
lines, the name of each table slot is unchanged and its hit counter has
grown by the number of processed lines whose user-agent its test accepts. -/
theorem scan_proj (lines : List String) (st : List (BotSig × BotStat)) :
    ((lines.foldl (fun acc l => stepBots l acc) st).map Prod.snd).map
      (fun s => (s.name, s.hits)) =
    st.map (fun p => (p.2.name, p.2.hits + lines.countP (fun l => p.1.test (parseUA l)))) := by
  induction lines generalizing st with
  | nil => simp
  | cons l ls ih =>
    rw [List.foldl_cons, ih]
    unfold stepBots
    rw [List.map_map]
    apply List.map_congr_left
    intro p _
    by_cases hb : p.1.test (parseUA l)
    · simp only [hb, Function.comp_apply, if_true, List.countP_cons]
      simp [hb]
      omega
    · simp only [Function.comp_apply, List.countP_cons]
      simp [hb]

/-- Projection through the `hits > 0` filter: two stat lists agreeing on
names and hit counts keep agreeing after the filter. -/
theorem filter_proj_eq (xs ys : List BotStat)
    (h : xs.map (fun s => (s.name, s.hits)) = ys.map (fun s => (s.name, s.hits))) :
    (xs.filter (fun s => decide (0 < s.hits))).map (fun s => (s.name, s.hits)) =
    (ys.filter (fun s => decide (0 < s.hits))).map (fun s => (s.name, s.hits)) := by
  induction xs generalizing ys with
  | nil =>
    cases ys with
    | nil => rfl
    | cons y ys => simp at h
  | cons x xs ih =>
    cases ys with
    | nil => simp at h
    | cons y ys =>
      simp only [List.map_cons, List.cons.injEq] at h
      obtain ⟨hxy, ht⟩ := h
      have hhits : x.hits = y.hits := congrArg Prod.snd hxy
      have hcond : (decide (0 < x.hits)) = (decide (0 < y.hits)) := by rw [hhits]
      simp only [List.filter_cons, hcond]
      by_cases h0 : 0 < y.hits
      · simp [h0, hxy, ih ys ht]
      · simp [h0, ih ys ht]

/-- C8: the per-bot hit counts that `fetchBots` reports (it scans the
reversed line list, newest first) coincide with those of a forward scan of
the same lines; only `last_seen` can differ between the two orders. -/
theorem C8_bot_counts_order_independent (lines : List String) :
    (fetchBots (some lines)).map (fun s => (s.name, s.hits)) =
    (scanBots lines).map (fun s => (s.name, s.hits)) := by
  show (scanBots lines.reverse).map _ = (scanBots lines).map _
  unfold scanBots
  apply filter_proj_eq
  rw [scan_proj, scan_proj]
  apply List.map_congr_left
  intro p _
  simp [List.countP_reverse]

end UpdateData

namespace Part002

open AiWatch

/-- Bumping one name leaves every other name's entry untouched. -/
theorem bump_other (n name : String) (ts : Option String) (st : List BotStat)
    (h : n ≠ name) : entryOf n (bump name ts st) = entryOf n st := by
  induction st with
  | nil =>
    simp [bump, entryOf, List.find?_cons, Ne.symm h]
  | cons s rest ih =>
    by_cases hs : s.name = name
    · simp only [bump, if_pos hs, entryOf, List.find?_cons]
      have : (s.name == n) = false := by simp [hs, Ne.symm h]
      simp [this]
    · simp only [bump, if_neg hs, entryOf, List.find?_cons]
      by_cases hn : s.name = n
      · simp [hn]
      · have : (s.name == n) = false := by simp [hn]
        simpa [this, entryOf] using ih

/-- Bumping a name increments its existing entry or creates a fresh one
with one hit and the given timestamp. -/
theorem bump_self (name : String) (ts : Option String) (st : List BotStat) :
    entryOf name (bump name ts st) =
      some (match entryOf name st with
            | some s => ⟨s.name, s.hits + 1, s.last_seen⟩
            | none => ⟨name, 1, ts⟩) := by
  induction st with
  | nil => simp [bump, entryOf, List.find?_cons]
  | cons s rest ih =>
    by_cases hs : s.name = name
    · simp [bump, if_pos hs, entryOf, List.find?_cons, hs]
    · have : (s.name == name) = false := by simp [hs]
      simp only [bump, if_neg hs, entryOf, List.find?_cons, this]
      simpa [entryOf] using ih

/-- Every built-in signature rejects the empty and the placeholder
user-agent. -/
theorem botDefs_reject_trivial :
    ∀ d ∈ botDefs, d.test "" = false ∧ d.test "-" = false := by decide

/-- C4 (amended, part_002 half): whenever a line's user-agent matches at
least two signatures of the table, `fetchBots`'s line step consults the
first match only — that bot's entry is bumped and every other name's entry
(hits and last_seen alike) is exactly as before. -/
theorem C4_first_match_wins (line : String) (st : List BotStat)
    (h2 : 2 ≤ (botDefs.filter (fun d => d.test (parseUA line))).length) :
    ∃ d, botDefs.find? (fun d => d.test (parseUA line)) = some d ∧
      d.test (parseUA line) = true ∧
      stepBots botDefs line st = bump d.name (tsOrNull line) st ∧
      (∀ n, n ≠ d.name → entryOf n (stepBots botDefs line st) = entryOf n st) ∧
      entryOf d.name (stepBots botDefs line st) =
        some (match entryOf d.name st with
              | some s => ⟨s.name, s.hits + 1, s.last_seen⟩
              | none => ⟨d.name, 1, tsOrNull line⟩) := by
  have hlen : 0 < (botDefs.filter (fun d => d.test (parseUA line))).length :=
    lt_of_lt_of_le (by norm_num) h2
  obtain ⟨x, hx⟩ := List.exists_mem_of_ne_nil _ (List.length_pos.mp hlen)
  have hx' := List.mem_filter.mp hx
  have hsome : (botDefs.find? (fun d => d.test (parseUA line))).isSome :=
    List.find?_isSome.mpr ⟨x, hx'.1, hx'.2⟩
  obtain ⟨d, hd⟩ := Option.isSome_iff_exists.mp hsome
  have pd : d.test (parseUA line) = true := by
    have hpd := List.find?_some (p := fun d : BotSig => d.test (parseUA line)) hd
    simpa using hpd
  have hne : ¬(parseUA line = "" ∨ parseUA line = "-") := by
    rintro (he | he)
    · have := (botDefs_reject_trivial x hx'.1).1
      rw [← he] at this
      rw [hx'.2] at this
      exact Bool.true_eq_false.mp this
    · have := (botDefs_reject_trivial x hx'.1).2
      rw [← he] at this
      rw [hx'.2] at this
      exact Bool.true_eq_false.mp this
  have hstep : stepBots botDefs line st = bump d.name (tsOrNull line) st := by
    simp only [stepBots, if_neg hne, hd]
  refine ⟨d, hd, pd, hstep, ?_, ?_⟩
  · intro n hn
    rw [hstep]
    exact bump_other n d.name (tsOrNull line) st hn
  · rw [hstep]
    exact bump_self d.name (tsOrNull line) st

/-- C4 witness: on a line whose user-agent `gptbot claudebot` matches both
the GPTBot and the Claude signatures, the step is exactly a bump of the
first match. -/
theorem C4_first_match_wins_witness :
    2 ≤ (botDefs.filter (fun d => d.test (parseUA c4Line2))).length ∧
    (∃ d, botDefs.find? (fun d => d.test (parseUA c4Line2)) = some d ∧
      d.test (parseUA c4Line2) = true ∧
      stepBots botDefs c4Line2 [] = bump d.name (tsOrNull c4Line2) [] ∧
      (∀ n, n ≠ d.name → entryOf n (stepBots botDefs c4Line2 []) = entryOf n []) ∧
      entryOf d.name (stepBots botDefs c4Line2 []) =
        some (match entryOf d.name [] with
              | some s => ⟨s.name, s.hits + 1, s.last_seen⟩
              | none => ⟨d.name, 1, tsOrNull c4Line2⟩)) :=
  ⟨by decide, C4_first_match_wins c4Line2 [] (by decide)⟩

end Part002

namespace AiWatch

/-- C4 counterexample: in the canonical `fetchBots` there is no early exit,
so the single line `c4Line`, whose user-agent matches both the GPTBot and
the Google-Extended signatures, increments both counters — the claim that
such a line contributes to only the first matching signature fails there. -/
theorem C4_counterexample_multi_label :
    (UpdateData.scanBots [c4Line]).map (fun s => (s.name, s.hits)) =
      [("GPTBot", 1), ("Google-Extended", 1)] := by decide

end AiWatch

namespace AiWatch

/-- Splitting on quotes always yields at least one chunk. -/
theorem splitOnQ_ne_nil (l : List Char) : splitOnQ l ≠ [] := by
  cases l with
  | nil => simp [splitOnQ]
  | cons c rest =>
    by_cases hc : c = '"'
    · simp [splitOnQ, hc]
    · simp only [splitOnQ, if_neg hc]
      cases splitOnQ rest with
      | nil => simp
      | cons h t => simp

/-- The odd-chunk selection never looks at the first chunk's content. -/
theorem oddChunks_cons (a b : List Char) (t : List (List Char)) :
    oddChunks (a :: t) = oddChunks (b :: t) := by
  cases t <;> rfl

/-- Joint characterisation of the quoted-segment scanner: in reading mode
`some acc` it finishes the current segment at the next quote chunk, and in
seeking mode `none` it produces exactly the odd-indexed chunks of the
quote-split line. -/
theorem quotedSegsAux_spec (l : List Char) :
    (∀ acc, quotedSegsAux l (some acc) =
      (match splitOnQ l with
       | [] => []
       | [_] => []
       | h :: t => (acc ++ h) :: oddChunks t)) ∧
    quotedSegsAux l none = oddChunks (splitOnQ l) := by
  induction l with
  | nil =>
    constructor
    · intro acc
      simp [quotedSegsAux, splitOnQ]
    · simp [quotedSegsAux, splitOnQ, oddChunks]
  | cons c rest ih =>
    obtain ⟨ihAux, ihNone⟩ := ih
    obtain ⟨h, t, hht⟩ := List.exists_cons_of_ne_nil (splitOnQ_ne_nil rest)
    by_cases hc : c = '"'
    · subst hc
      constructor
      · intro acc
        show acc :: quotedSegsAux rest none = _
        rw [ihNone]
        simp only [splitOnQ, if_pos rfl]
        rw [hht]
        simp
      · show quotedSegsAux rest (some []) = _
        rw [ihAux []]
        simp only [splitOnQ, if_pos rfl]
        rw [hht]
        by_cases ht : t = [] <;> simp [oddChunks, ht]
    · constructor
      · intro acc
        simp only [quotedSegsAux, if_neg hc]
        rw [ihAux (acc ++ [c])]
        simp only [splitOnQ, if_neg hc]
        rw [hht]
        cases t with
        | nil => simp
        | cons t1 ts => simp
      · simp only [quotedSegsAux, if_neg hc]
        rw [ihNone]
        simp only [splitOnQ, if_neg hc]
        rw [hht]
        exact oddChunks_cons h (c :: h) t

end AiWatch

namespace AiWatch

/-- Every canonical bot signature rejects the empty and the placeholder
user-agent. -/
theorem botSigs_reject_trivial :
    ∀ b ∈ UpdateData.botSigs, b.test "" = false ∧ b.test "-" = false := by decide

/-- C9 (amended): in the part_002 variant the extracted user-agent is
exactly the last double-quoted segment of the line, and a line whose
extracted user-agent is empty or the placeholder `-` leaves the statistics
untouched; in the canonical variant such a user-agent likewise matches no
signature of the table, so the line attributes to no bot there either. -/
theorem C9_parseUA_last_quoted (l : String) :
    Part002.parseUA l = lastQuotedSegment l ∧
    (∀ st : List BotStat,
      Part002.parseUA l = "" ∨ Part002.parseUA l = "-" →
      Part002.stepBots Part002.botDefs l st = st) ∧
    (∀ st : List (BotSig × BotStat),
      (∀ p ∈ st, p.1 ∈ UpdateData.botSigs) →
      UpdateData.parseUA l = "" ∨ UpdateData.parseUA l = "-" →
      UpdateData.stepBots l st = st) := by
  refine ⟨?_, ?_, ?_⟩
  · unfold Part002.parseUA lastQuotedSegment quotedSegs
    rw [(quotedSegsAux_spec l.data).2]
  · intro st hskip
    simp [Part002.stepBots, hskip]
  · intro st hsig hskip
    unfold UpdateData.stepBots
    have hall : ∀ p ∈ st, p.1.test (UpdateData.parseUA l) = false := by
      intro p hp
      rcases hskip with he | he <;> rw [he]
      · exact (botSigs_reject_trivial p.1 (hsig p hp)).1
      · exact (botSigs_reject_trivial p.1 (hsig p hp)).2
    calc st.map (fun p => if p.1.test (UpdateData.parseUA l) then
          (p.1, ⟨p.2.name, p.2.hits + 1,
            match p.2.last_seen with
            | some t => some t
            | none => tsOrNull l⟩) else p)
        = st.map id := by
          apply List.map_congr_left
          intro p hp
          simp [hall p hp]
      _ = st := List.map_id st

/-- C9 witness: on a line ending in the quoted placeholder, part_002
extracts `-` (its last quoted segment) and skips the line, and the
canonical scanner also leaves its statistics unchanged. -/
theorem C9_parseUA_last_quoted_witness :
    Part002.parseUA c9Line = lastQuotedSegment c9Line ∧
    Part002.stepBots Part002.botDefs c9Line [] = [] ∧
    UpdateData.stepBots c9Line UpdateData.initStats = UpdateData.initStats :=
  ⟨(C9_parseUA_last_quoted c9Line).1,
   (C9_parseUA_last_quoted c9Line).2.1 [] (by decide),
   (C9_parseUA_last_quoted c9Line).2.2 UpdateData.initStats
     (by
       intro p hp
       obtain ⟨b, hb, rfl⟩ := List.mem_map.mp hp
       exact hb)
     (by decide)⟩

/-- C9 counterexample: the canonical `parseUA` regex demands two quoted
segments at the end of the line, so on a line holding a single quoted
segment it extracts the empty string instead of the last double-quoted
segment. -/
theorem C9_counterexample_canonical_parseUA :
    UpdateData.parseUA "\"B\"" = "" ∧ lastQuotedSegment "\"B\"" = "B" ∧
    UpdateData.parseUA "\"B\"" ≠ lastQuotedSegment "\"B\"" := by decide

end AiWatch

namespace UpdateData

open AiWatch

/-- Unfolding of a configured, successful canonical `fetchGSC` run in terms
of the rows the endpoint returned. -/
theorem fetchGSC_eq (creds : Creds) (brand : List String) (api : Api) (today : Nat)
    (hc : credsOk creds = true) (qraw praw : List ApiRow)
    (hq : api (today - 1 - 29) (today - 1) Dim.query = .ok qraw)
    (hp : api (today - 1 - 29) (today - 1) Dim.page = .ok praw) :
    fetchGSC creds brand api today = .ok (some
      { summary :=
          { klickar := (List.insertionSort pLe (praw.map toPageRow)).foldl
              (fun s r => s + r.clicks) 0
          , visningar := (List.insertionSort pLe (praw.map toPageRow)).foldl
              (fun s r => s + r.impressions) 0
          , genCtrPct :=
              if (List.insertionSort pLe (praw.map toPageRow)).length ≠ 0 then
                ((List.insertionSort pLe (praw.map toPageRow)).foldl
                    (fun s r => s + r.ctr) 0) /
                  (((List.insertionSort pLe (praw.map toPageRow)).length : Nat) : Rat) * 100
              else 0
          , period := (today - 1 - 29, today - 1) }
      , topQueries := (List.insertionSort qLe ((qraw.filter
          (fun r => brandMatch brand (r.keys.headD ""))).map toQueryRow)).take 50
      , topPages := (List.insertionSort pLe (praw.map toPageRow)).take 50 }) := by
  simp [fetchGSC, hc, hq, hp]

/-- A throwing query call of a configured canonical `fetchGSC` run
propagates the error unchanged. -/
theorem fetchGSC_error (creds : Creds) (brand : List String) (api : Api) (today : Nat)
    (hc : credsOk creds = true) (e : String)
    (hq : api (today - 1 - 29) (today - 1) Dim.query = .error e) :
    fetchGSC creds brand api today = .error e := by
  simp [fetchGSC, hc, hq]

end UpdateData

namespace AiWatch

/-- C1: in the canonical file an analytics-API throw is not caught inside
`fetchGSC` — it propagates through `Promise.all` and aborts `main`, so no
snapshot is produced; the part_002 variant instead catches it, yielding the
placeholder `gsc` while alerts and bots are assembled normally. -/
theorem C1_gsc_error_aborts_run :
    UpdateData.fetchGSC credsX ["wpg"] apiThrow 100 = .error "403 quota" ∧
    UpdateData.main [] credsX ["wpg"] apiThrow 100 (some []) = .error "403 quota" ∧
    (∀ (alertsAll : List AlertItem) (creds : Creds) (brand : List String)
       (today : Nat) (extra : List BotSig) (linesOpt : Option (List String)),
      Part002.fetchGSC creds brand apiThrow today = none ∧
      Part002.main alertsAll creds brand apiThrow today extra linesOpt =
        ⟨brand, Part002.fetchAlerts alertsAll, none, Part002.fetchBots extra linesOpt⟩) := by
  refine ⟨by decide, by decide, ?_⟩
  intro alertsAll creds brand today extra linesOpt
  have hgsc : Part002.fetchGSC creds brand apiThrow today = none := by
    unfold Part002.fetchGSC
    split
    · rfl
    · rfl
  exact ⟨hgsc, by simp [Part002.main, hgsc]⟩

end AiWatch

namespace Part002

open AiWatch

/-- Unfolding of a part_002 `fetchGSC` run whose 30-day window is not
entirely empty: the primary window's rows are used and no fallback query
is issued. -/
theorem fetchGSC_eq_primary (creds : Creds) (brand : List String) (api : Api)
    (today : Nat) (hc : credsOk creds = true) (q30 p30 : List ApiRow)
    (hq : api (today - 1 - 29) (today - 1) Dim.query = .ok q30)
    (hp : api (today - 1 - 29) (today - 1) Dim.page = .ok p30)
    (hne : ¬(q30.length = 0 ∧ p30.length = 0)) :
    fetchGSC creds brand api today =
      some (buildGsc brand q30 p30 (today - 1 - 29, today - 1) false) := by
  simp only [fetchGSC, hc, hq, hp]
  simp only [Bool.true_eq_false, if_false]
  rw [if_neg hne]

/-- Unfolding of a part_002 `fetchGSC` run whose 30-day window is empty for
both dimensions: both queries are re-issued over the 90-day window and the
summary carries the 90-day range with the fallback marker. -/
theorem fetchGSC_eq_fallback (creds : Creds) (brand : List String) (api : Api)
    (today : Nat) (hc : credsOk creds = true) (q90 p90 : List ApiRow)
    (hq30 : api (today - 1 - 29) (today - 1) Dim.query = .ok [])
    (hp30 : api (today - 1 - 29) (today - 1) Dim.page = .ok [])
    (hq90 : api (today - 1 - 89) (today - 1) Dim.query = .ok q90)
    (hp90 : api (today - 1 - 89) (today - 1) Dim.page = .ok p90) :
    fetchGSC creds brand api today =
      some (buildGsc brand q90 p90 (today - 1 - 89, today - 1) true) := by
  simp [fetchGSC, hc, hq30, hp30, hq90, hp90]

/-- Any non-placeholder part_002 GSC result is a `buildGsc` of some fetched
rows. -/
theorem fetchGSC_some_inv (creds : Creds) (brand : List String) (api : Api)
    (today : Nat) (g : GscData) (h : fetchGSC creds brand api today = some g) :
    ∃ qraw praw period fb, g = buildGsc brand qraw praw period fb := by
  simp only [fetchGSC] at h
  split at h
  · exact absurd h (by simp)
  · split at h
    · exact absurd h (by simp)
    · split at h
      · exact absurd h (by simp)
      · split at h
        · split at h
          · exact absurd h (by simp)
          · split at h
            · exact absurd h (by simp)
            · exact ⟨_, _, _, _, (Option.some.inj h).symm⟩
        · exact ⟨_, _, _, _, (Option.some.inj h).symm⟩

end Part002

namespace AiWatch

/-- C2: on the concrete page rows of `c2Api` (1 click / 2 impressions and
0 / 1000), the canonical summary CTR is the arithmetic mean of the per-row
CTRs (25 percent) and differs from sum(clicks)/sum(impressions)
(100/1002 percent), while the part_002 summary computes exactly the
ratio of the sums. -/
theorem C2_ctr_mean_not_ratio :
    c2Canonical.map (fun g => (g.summary.klickar, g.summary.visningar)) = some (1, 1002) ∧
    c2Canonical.map (fun g => g.summary.genCtrPct) = some 25 ∧
    (25 : Rat) ≠ (1 : Rat) / (1002 : Rat) * 100 ∧
    c2Part002.map (fun g => (g.summary.klickar, g.summary.visningar)) = some (1, 1002) ∧
    c2Part002.map (fun g => g.summary.genCtr) = some ((1 : Rat) / (1002 : Rat)) := by
  have hq : c2Api (100 - 1 - 29) (100 - 1) Dim.query = .ok [] := rfl
  have hp : c2Api (100 - 1 - 29) (100 - 1) Dim.page =
      .ok [⟨["https://a/"], 1, 2, mkRat 1 2, 0⟩, ⟨["https://b/"], 0, 1000, 0, 0⟩] := rfl
  have h1 := UpdateData.fetchGSC_eq credsX ["wpg"] c2Api 100 (by decide)
    [] [⟨["https://a/"], 1, 2, mkRat 1 2, 0⟩, ⟨["https://b/"], 0, 1000, 0, 0⟩] hq hp
  have h2 := Part002.fetchGSC_eq_primary credsX ["wpg"] c2Api 100 (by decide)
    [] [⟨["https://a/"], 1, 2, mkRat 1 2, 0⟩, ⟨["https://b/"], 0, 1000, 0, 0⟩] hq hp
    (by decide)
  have hL : List.insertionSort pLe
      (([⟨["https://a/"], 1, 2, mkRat 1 2, 0⟩, ⟨["https://b/"], 0, 1000, 0, 0⟩] :
        List ApiRow).map toPageRow) =
      [⟨"https://a/", 1, 2, mkRat 1 2⟩, ⟨"https://b/", 0, 1000, 0⟩] := by decide
  refine ⟨by decide, ?_, by norm_num, by decide, ?_⟩
  · show c2Canonical.map (fun g => g.summary.genCtrPct) = some 25
    unfold c2Canonical
    rw [h1]
    simp only [Option.map]
    refine congrArg some ?_
    show (if _ then _ else _) = (25 : Rat)
    rw [hL]
    norm_num [List.foldl, Rat.mkRat_eq_divInt, Rat.divInt_eq_div]
  · show c2Part002.map (fun g => g.summary.genCtr) = some ((1 : Rat) / (1002 : Rat))
    unfold c2Part002
    rw [h2]
    simp only [Option.map]
    refine congrArg some ?_
    show Part002.Summary.genCtr _ = _
    unfold Part002.buildGsc
    rw [hL]
    norm_num [List.foldl]

/-- C3 counterexample: the canonical `fetchGSC` issues no fallback — a run
in which every call returns zero rows still reports the 30-day period
(70, 99) for day 100, not the 90-day period (10, 99) the claim demands. -/
theorem C3_counterexample_no_fallback :
    c3CanonicalPeriod = some (70, 99) ∧
    c3CanonicalPeriod ≠ some (10, 99) := by
  refine ⟨by decide, by decide⟩

/-- C3 (amended): in the part_002 variant, a 30-day window that is empty
for both dimensions makes `fetchGSC` re-issue both queries over the 90-day
window and report the 90-day range with the fallback marker; the canonical
variant never falls back and always reports the 30-day range. -/
theorem C3_fallback_90d (creds : Creds) (brand : List String) (api : Api)
    (today : Nat) (q90 p90 : List ApiRow) (hc : credsOk creds = true)
    (hq30 : api (today - 1 - 29) (today - 1) Dim.query = .ok [])
    (hp30 : api (today - 1 - 29) (today - 1) Dim.page = .ok [])
    (hq90 : api (today - 1 - 89) (today - 1) Dim.query = .ok q90)
    (hp90 : api (today - 1 - 89) (today - 1) Dim.page = .ok p90) :
    Part002.fetchGSC creds brand api today =
      some (Part002.buildGsc brand q90 p90 (today - 1 - 89, today - 1) true) ∧
    (Part002.buildGsc brand q90 p90 (today - 1 - 89, today - 1) true).summary.period =
      (today - 1 - 89, today - 1) ∧
    (Part002.buildGsc brand q90 p90 (today - 1 - 89, today - 1) true).summary.fallback90 =
      true ∧
    (∃ g0, UpdateData.fetchGSC creds brand api today = .ok (some g0) ∧
      g0.summary.period = (today - 1 - 29, today - 1) ∧
      g0.topQueries = [] ∧ g0.topPages = []) := by
  refine ⟨Part002.fetchGSC_eq_fallback creds brand api today hc q90 p90 hq30 hp30 hq90 hp90,
    rfl, rfl, ?_⟩
  exact ⟨_, UpdateData.fetchGSC_eq creds brand api today hc [] [] hq30 hp30, rfl, rfl, rfl⟩

/-- C3 witness: with `c3Api` (empty 30-day window, one row per dimension in
the 90-day window) the part_002 fetcher returns the 90-day data with period
(10, 99) and the canonical fetcher reports (70, 99) with no data. -/
theorem C3_fallback_90d_witness :
    Part002.fetchGSC credsX ["wpg"] c3Api 100 =
      some (Part002.buildGsc ["wpg"] [⟨["wpg poker"], 3, 7, 0, 0⟩]
        [⟨["https://worldpoker.guide/"], 4, 9, 0, 0⟩] (10, 99) true) ∧
    (Part002.buildGsc ["wpg"] [⟨["wpg poker"], 3, 7, 0, 0⟩]
        [⟨["https://worldpoker.guide/"], 4, 9, 0, 0⟩] (10, 99) true).summary.period =
      (10, 99) ∧
    (Part002.buildGsc ["wpg"] [⟨["wpg poker"], 3, 7, 0, 0⟩]
        [⟨["https://worldpoker.guide/"], 4, 9, 0, 0⟩] (10, 99) true).summary.fallback90 =
      true ∧
    (∃ g0, UpdateData.fetchGSC credsX ["wpg"] c3Api 100 = .ok (some g0) ∧
      g0.summary.period = (70, 99) ∧
      g0.topQueries = [] ∧ g0.topPages = []) :=
  C3_fallback_90d credsX ["wpg"] c3Api 100 [⟨["wpg poker"], 3, 7, 0, 0⟩]
    [⟨["https://worldpoker.guide/"], 4, 9, 0, 0⟩] (by decide) rfl rfl rfl rfl

end AiWatch

namespace UpdateData

open AiWatch

/-- A throwing page call of a configured canonical `fetchGSC` run (after a
successful query call) propagates the error unchanged. -/
theorem fetchGSC_error_page (creds : Creds) (brand : List String) (api : Api)
    (today : Nat) (hc : credsOk creds = true) (qraw : List ApiRow) (e : String)
    (hq : api (today - 1 - 29) (today - 1) Dim.query = .ok qraw)
    (hp : api (today - 1 - 29) (today - 1) Dim.page = .error e) :
    fetchGSC creds brand api today = .error e := by
  simp [fetchGSC, hc, hq, hp]

/-- A canonical `fetchGSC` run with incomplete credentials is skipped. -/
theorem fetchGSC_skip (creds : Creds) (brand : List String) (api : Api)
    (today : Nat) (hc : credsOk creds = false) :
    fetchGSC creds brand api today = .ok none := by
  simp [fetchGSC, hc]

/-- Any successful, configured canonical GSC result exposes its lists as
the sorted, truncated images of some fetched row lists. -/
theorem fetchGSC_ok_inv (creds : Creds) (brand : List String) (api : Api)
    (today : Nat) (g : GscData) (h : fetchGSC creds brand api today = .ok (some g)) :
    ∃ qraw praw : List ApiRow,
      g.topQueries = (List.insertionSort qLe ((qraw.filter
        (fun r => brandMatch brand (r.keys.headD ""))).map toQueryRow)).take 50 ∧
      g.topPages = (List.insertionSort pLe (praw.map toPageRow)).take 50 := by
  by_cases hc : credsOk creds = true
  · cases hq : api (today - 1 - 29) (today - 1) Dim.query with
    | error e =>
      rw [fetchGSC_error creds brand api today hc e hq] at h
      exact absurd h (by simp)
    | ok qraw =>
      cases hp : api (today - 1 - 29) (today - 1) Dim.page with
      | error e =>
        rw [fetchGSC_error_page creds brand api today hc qraw e hq hp] at h
        exact absurd h (by simp)
      | ok praw =>
        rw [fetchGSC_eq creds brand api today hc qraw praw hq hp] at h
        have hg := Option.some.inj (Except.ok.inj h)
        exact ⟨qraw, praw, by rw [← hg], by rw [← hg]⟩
  · have hcf : credsOk creds = false := by
      revert hc
      cases credsOk creds <;> simp
    rw [fetchGSC_skip creds brand api today hcf] at h
    exact absurd h (by simp)

end UpdateData

namespace AiWatch

/-- C6 (amended): every row of the canonical `topQueries` contains a brand
term, and — provided at most 50 fetched rows match the brand filter — every
fetched row containing a brand term appears in `topQueries`; with more than
50 matching rows the 50-entry cap can exclude matching rows. -/
theorem C6_brand_filter_iff_upto_cap (creds : Creds) (brand : List String)
    (api : Api) (today : Nat) (qraw praw : List ApiRow) (g : UpdateData.GscData)
    (hc : credsOk creds = true)
    (hq : api (today - 1 - 29) (today - 1) Dim.query = .ok qraw)
    (hp : api (today - 1 - 29) (today - 1) Dim.page = .ok praw)
    (hg : UpdateData.fetchGSC creds brand api today = .ok (some g)) :
    (∀ r ∈ g.topQueries, brandMatch brand r.query = true) ∧
    ((qraw.filter (fun r => brandMatch brand (r.keys.headD ""))).length ≤ 50 →
      ∀ r ∈ qraw, brandMatch brand (r.keys.headD "") = true →
        toQueryRow r ∈ g.topQueries) := by
  rw [UpdateData.fetchGSC_eq creds brand api today hc qraw praw hq hp] at hg
  have hgg := (Option.some.inj (Except.ok.inj hg)).symm
  constructor
  · intro r hr
    rw [hgg] at hr
    have hr1 : r ∈ List.insertionSort qLe ((qraw.filter
        (fun r => brandMatch brand (r.keys.headD ""))).map toQueryRow) :=
      List.mem_of_mem_take hr
    have hr2 := (List.perm_insertionSort qLe _).mem_iff.mp hr1
    obtain ⟨r', hr', rfl⟩ := List.mem_map.mp hr2
    have hpred := (List.mem_filter.mp hr').2
    simpa [toQueryRow] using hpred
  · intro hlen r hr hmatch
    rw [hgg]
    have hrf : r ∈ qraw.filter (fun r => brandMatch brand (r.keys.headD "")) :=
      List.mem_filter.mpr ⟨hr, hmatch⟩
    have hm : toQueryRow r ∈ (qraw.filter
        (fun r => brandMatch brand (r.keys.headD ""))).map toQueryRow :=
      List.mem_map_of_mem _ hrf
    have hs := (List.perm_insertionSort qLe _).mem_iff.mpr hm
    have hlen2 : (List.insertionSort qLe ((qraw.filter
        (fun r => brandMatch brand (r.keys.headD ""))).map toQueryRow)).length ≤ 50 := by
      rw [(List.perm_insertionSort qLe _).length_eq, List.length_map]
      exact hlen
    rw [List.take_of_length_le hlen2]
    exact hs

/-- C6 witness: on the two-row fetch of `c6SmallApi` (one brand-matching
row, one not), both directions of the amended claim hold concretely. -/
theorem C6_brand_filter_iff_upto_cap_witness :
    (∀ r ∈ c6gSmall.topQueries, brandMatch ["wpg"] r.query = true) ∧
    ((c6SmallRows.filter (fun r => brandMatch ["wpg"] (r.keys.headD ""))).length ≤ 50 →
      ∀ r ∈ c6SmallRows, brandMatch ["wpg"] (r.keys.headD "") = true →
        toQueryRow r ∈ c6gSmall.topQueries) :=
  C6_brand_filter_iff_upto_cap credsX ["wpg"] c6SmallApi 100 c6SmallRows []
    c6gSmall (by decide) rfl rfl (by decide)

/-- C6 counterexample: with 51 brand-matching rows, the 0-impression row
contains the brand term yet is absent from the 50-entry `topQueries`, so
the unconditional iff of the claim fails on the code. -/
theorem C6_counterexample_cap_excludes_match :
    brandMatch ["wpg"] (c6row0.keys.headD "") = true ∧
    c6row0 ∈ c6Rows ∧
    c6TopQueries.length = 50 ∧
    toQueryRow c6row0 ∉ c6TopQueries := by decide

end AiWatch

namespace AiWatch

/-- C7: every snapshot the canonical `main` produces has its alerts sorted
by published date descending, its query list sorted by impressions
descending, its page list sorted by clicks descending, and both GSC lists
capped at 50 entries (the placeholder carries empty lists). -/
theorem C7_snapshot_invariants (alertsAll : List AlertItem) (creds : Creds)
    (brand : List String) (api : Api) (today : Nat)
    (linesOpt : Option (List String)) (snap : UpdateData.Snapshot)
    (h : UpdateData.main alertsAll creds brand api today linesOpt = .ok snap) :
    List.Sorted aLe snap.alerts ∧
    List.Sorted qLe snap.shownQueries ∧ snap.shownQueries.length ≤ 50 ∧
    List.Sorted pLe snap.shownPages ∧ snap.shownPages.length ≤ 50 := by
  unfold UpdateData.main at h
  cases hfg : UpdateData.fetchGSC creds brand api today with
  | error e =>
    rw [hfg] at h
    exact absurd h (by simp)
  | ok gsc =>
    rw [hfg] at h
    have h2 : Except.ok (⟨brand, UpdateData.fetchAlerts alertsAll, gsc,
        UpdateData.fetchBots linesOpt⟩ : UpdateData.Snapshot) = .ok snap := h
    have hs := Except.ok.inj h2
    have halerts : List.Sorted aLe (UpdateData.fetchAlerts alertsAll) :=
      List.Pairwise.sublist (dedupAlerts_sublist [] _)
        (List.sorted_insertionSort aLe alertsAll)
    cases gsc with
    | none =>
      rw [← hs]
      exact ⟨halerts, by simp [UpdateData.Snapshot.shownQueries],
        by simp [UpdateData.Snapshot.shownQueries],
        by simp [UpdateData.Snapshot.shownPages],
        by simp [UpdateData.Snapshot.shownPages]⟩
    | some g =>
      obtain ⟨qraw, praw, hTQ, hTP⟩ :=
        UpdateData.fetchGSC_ok_inv creds brand api today g hfg
      rw [← hs]
      refine ⟨halerts, ?_, ?_, ?_, ?_⟩
      · show List.Sorted qLe g.topQueries
        rw [hTQ]
        exact List.Pairwise.sublist (List.take_sublist _ _)
          (List.sorted_insertionSort qLe _)
      · show g.topQueries.length ≤ 50
        rw [hTQ, List.length_take]
        exact min_le_left _ _
      · show List.Sorted pLe g.topPages
        rw [hTP]
        exact List.Pairwise.sublist (List.take_sublist _ _)
          (List.sorted_insertionSort pLe _)
      · show g.topPages.length ≤ 50
        rw [hTP, List.length_take]
        exact min_le_left _ _

/-- C7 witness: the invariants hold of the concrete snapshot `c7Snap`
produced by a full canonical run. -/
theorem C7_snapshot_invariants_witness :
    List.Sorted aLe c7Snap.alerts ∧
    List.Sorted qLe c7Snap.shownQueries ∧ c7Snap.shownQueries.length ≤ 50 ∧
    List.Sorted pLe c7Snap.shownPages ∧ c7Snap.shownPages.length ≤ 50 :=
  C7_snapshot_invariants c5Items credsX ["wpg"] c6SmallApi 100 (some [c4Line])
    c7Snap (by decide)

/-- C10: with an empty brand-term list the filter's existential test
rejects every row, so `topQueries` is empty in both variants — the filter
does not degenerate to keeping all rows. -/
theorem C10_empty_brand_no_queries (creds : Creds) (api : Api) (today : Nat) :
    (∀ g, UpdateData.fetchGSC creds [] api today = .ok (some g) →
      g.topQueries = []) ∧
    (∀ g2, Part002.fetchGSC creds [] api today = some g2 →
      g2.topQueries = []) := by
  have hfilter : ∀ l : List ApiRow,
      l.filter (fun r => brandMatch [] (r.keys.headD "")) = [] := by
    intro l
    apply List.filter_eq_nil_iff.mpr
    intro a _
    simp [brandMatch, lowerS, containsS]
  constructor
  · intro g hg
    obtain ⟨qraw, praw, hTQ, _⟩ :=
      UpdateData.fetchGSC_ok_inv creds [] api today g hg
    rw [hTQ, hfilter]
    rfl
  · intro g2 hg2
    obtain ⟨qraw, praw, period, fb, rfl⟩ :=
      Part002.fetchGSC_some_inv creds [] api today g2 hg2
    show (Part002.buildGsc [] qraw praw period fb).topQueries = []
    unfold Part002.buildGsc
    rw [hfilter]
    rfl

/-- C10 witness: with brand terms cleared, the concrete runs of both
variants over `c6SmallApi` produce empty query lists. -/
theorem C10_empty_brand_no_queries_witness :
    c10gCanonical.topQueries = [] ∧ c10gPart.topQueries = [] :=
  ⟨(C10_empty_brand_no_queries credsX c6SmallApi 100).1 c10gCanonical (by decide),
   (C10_empty_brand_no_queries credsX c6SmallApi 100).2 c10gPart (by decide)⟩

end AiWatch
